import Mathlib

/-!
Verification of the build-workflow core (`src/build/build-workflow.ts`): the job
graph it constructs, the boolean conditions gating each job, and the policy
split between anti-tamper, self-mutation and post-build jobs. External
collaborators (workflow host, checkout/patch/identity primitives, task runner,
expression evaluation) are modelled from the spec where the repository code is
not part of the source fragment; each such definition is marked.
-/

namespace Projen

/-- Git identity (name/email pair) used to attribute the self-mutation commit. -/
structure GitIdentity where
  name : String
  email : String
deriving DecidableEq

/-- A named build task; running it is delegated to an external abstraction. -/
structure Task where
  name : String
deriving DecidableEq

/-- Modelled from the spec: the slice of project configuration the core reads —
whether the GitHub source-control collaborator is attached, and the optional
auto-approve label (the source reads
`(this.project as GitHubProject).autoApprove?.label`). -/
structure Project where
  hasGitHub : Bool
  autoApprove : Option String := none
deriving DecidableEq

/-- The GitHub component attached to a project (external collaborator; the core
only needs the back-pointer to the project). -/
structure GitHub where
  project : Project
deriving DecidableEq

/-- Modelled from the spec: accessor for the GitHub collaborator of a project
(`GitHub.of` in `src/github`, not part of the source fragment). -/
def GitHub.of (project : Project) : Option GitHub :=
  if project.hasGitHub then some { project } else none

/-- Modelled from the spec: the task-execution abstraction that turns a named
build task into a runnable command (out of scope for the core, spec section 1). -/
def Project.runTaskCommand (_project : Project) (task : Task) : String :=
  "npx projen " ++ task.name

/-- One workflow step: a named external action invocation (uses plus
with-parameters, flattened into the optional fields below) or an inline command,
with an optional id and step-level condition. -/
structure JobStep where
  name : Option String := none
  id : Option String := none
  uses : Option String := none
  run : Option String := none
  stepIf : Option String := none
  withRef : Option String := none
  withRepository : Option String := none
  withToken : Option String := none
  withName : Option String := none
  withPath : Option String := none
deriving DecidableEq

/-- A granular job permission (`JobPermission` in the workflows model). -/
inductive JobPermission where
  | read
  | write
deriving DecidableEq

/-- Job-level permission block; the empty record grants nothing. -/
structure Permissions where
  contents : Option JobPermission := none
deriving DecidableEq

/-- A declared job output: which step produces it and under which output name. -/
structure JobOutput where
  stepId : String
  outputName : String
deriving DecidableEq

/-- Step list of a job: either a concrete list, or the lazily rendered
build-step thunk (the source stores `(() => this.renderBuildSteps()) as any`,
forced only at synthesis time). -/
inductive JobSteps where
  | concrete (steps : List JobStep)
  | lazyRender
deriving DecidableEq

/-- A workflow job record (`Job` in the workflows model); `needs` and `jobIf`
are optional exactly as in the source interface. -/
structure Job where
  runsOn : List String := []
  container : Option String := none
  env : List (String × String) := []
  permissions : Permissions := {}
  needs : Option (List String) := none
  jobIf : Option String := none
  steps : JobSteps := .concrete []
  outputs : List (String × JobOutput) := []
deriving DecidableEq

/-- The workflow aggregate owned by the external host: a name, the privileged
token secret name, triggers, and the registered jobs in registration order. -/
structure GithubWorkflow where
  name : String
  projenTokenSecret : String := "PROJEN_GITHUB_TOKEN"
  triggers : List String := []
  jobs : List (String × Job) := []
deriving DecidableEq

/-- The ids of the jobs registered on a workflow. -/
def wfIds (wf : GithubWorkflow) : List String := wf.jobs.map Prod.fst

/-- Modelled from the spec: job registration on the external workflow host
(`GithubWorkflow.addJob`, not part of the source fragment); a duplicate job id
is a ConstructionError, always fatal and immediate (spec section 7). -/
def GithubWorkflow.addJob (wf : GithubWorkflow) (id : String) (job : Job) :
    Except String GithubWorkflow :=
  if (wfIds wf).contains id then .error ("duplicate job id: " ++ id)
  else .ok { wf with jobs := wf.jobs ++ [(id, job)] }

/-- Constant PULL_REQUEST_REF (line 9 of the source). -/
def PULL_REQUEST_REF : String := "$\x7b\x7b github.event.pull_request.head.ref \x7d\x7d"

/-- Constant PULL_REQUEST_REPOSITORY (line 10). -/
def PULL_REQUEST_REPOSITORY : String :=
  "$\x7b\x7b github.event.pull_request.head.repo.full_name \x7d\x7d"

/-- Constant BUILD_JOBID (line 11). -/
def BUILD_JOBID : String := "build"

/-- Constant DIFF_STEP (line 12). -/
def DIFF_STEP : String := "diff"

/-- Constant DIFF_EXISTS (line 13). -/
def DIFF_EXISTS : String := "diff_exists"

/-- Constant IS_FORK (line 14). -/
def IS_FORK : String := "github.event.pull_request.head.repo.full_name != github.repository"

/-- Constant NOT_FORK (line 15). -/
def NOT_FORK : String := "!(" ++ IS_FORK ++ ")"

/-- The diff-exists output reference emitted into job conditions
(the template at lines 104, 198, 243, 250-251). -/
def diffOutputExpr : String := "needs." ++ BUILD_JOBID ++ ".outputs." ++ DIFF_EXISTS

/-- Modelled from the spec: the fixed well-known build-artifact name
(`BUILD_ARTIFACT_NAME` in `src/github/constants.ts`, not part of the source
fragment; spec section 6, persisted artifacts). -/
def BUILD_ARTIFACT_NAME : String := "build-artifact"

/-- Modelled from the spec: the default git identity
(`DEFAULT_GITHUB_ACTIONS_USER` in `src/github/constants.ts`, not part of the
source fragment). -/
def DEFAULT_GITHUB_ACTIONS_USER : GitIdentity :=
  { name := "github-actions", email := "github-actions@github.com" }

/-- The templated reference to a workflow secret, as interpolated at line 219. -/
def tokenRef (secret : String) : String := "$\x7b\x7b secrets." ++ secret ++ " \x7d\x7d"

/-- Modelled from the spec: the checkout-with-patch primitive
(`WorkflowActions.checkoutWithPatch` in `src/github/workflow-actions.ts`, not
part of the source fragment): re-checks out the given ref/repository, with the
given credential when one is supplied (spec sections 4.3 and 4.4). -/
def WorkflowActions.checkoutWithPatch (token ref repository : Option String) :
    List JobStep :=
  [{ name := some "Checkout", uses := some "actions/checkout@v2",
     withToken := token, withRef := ref, withRepository := repository }]

/-- Modelled from the spec: the git-identity primitive
(`WorkflowActions.setGitIdentity`, not part of the source fragment): stamps the
configured identity before the self-mutation commit (spec section 4.4). -/
def WorkflowActions.setGitIdentity (identity : GitIdentity) : List JobStep :=
  [{ name := some "Set git identity",
     run := some ("git config user.name \"" ++ identity.name
       ++ "\" && git config user.email \"" ++ identity.email ++ "\"") }]

/-- Modelled from the spec: `WorkflowActions.createUploadGitPatch` (not part of
the source fragment): persists a patch artifact capturing the diff, guarded by
the condition handed to it (spec section 4.2, step 6). -/
def WorkflowActions.createUploadGitPatch (cond : String) : List JobStep :=
  [{ name := some "Upload patch", uses := some "actions/upload-artifact@v2",
     stepIf := some cond, withName := some ".repo.patch", withPath := some ".repo.patch" }]

/-- Options of the build workflow (`BuildWorkflowOptions`, lines 17-72). The
`onlyForks` toggle is modelled from the spec: `addAntiTamperJob` reads
`options.onlyForks` although the options interface declares no such member; the
spec names it `onlyForksAntiTamper`, defaulting to "run on any drift"
(spec sections 3 and 9). -/
structure BuildWorkflowOptions where
  buildTask : Task
  artifactsDirectory : String
  containerImage : Option String := none
  mutableBuild : Option Bool := none
  preBuildSteps : List JobStep := []
  postBuildSteps : List JobStep := []
  gitIdentity : Option GitIdentity := none
  env : List (String × String) := []
  onlyForks : Bool := false
deriving DecidableEq

/-- The state of a BuildWorkflow component (fields of the class, lines 74-84).
The `conditions` field holds the list the constructor builds at lines 102-116;
the source reads that constructor-local from `addSelfMutationJob` (line 215), a
scoping slip modelled here as the stored field the constructor set. -/
structure BuildWorkflow where
  project : Project
  github : GitHub
  workflow : GithubWorkflow
  preBuildSteps : List JobStep
  postBuildSteps : List JobStep
  gitIdentity : GitIdentity
  buildTask : Task
  artifactsDirectory : String
  mutableBuilds : Bool
  conditions : List String
  onlyForks : Bool
  _postBuildJobs : List String
deriving DecidableEq

/-- Head of the label-containment fact (spec section 6, label exclusion). -/
def labelsExprHead : String := "contains(github.event.pull_request.labels.*.name, \x27"

/-- Tail of the label-containment fact. -/
def labelsExprTail : String := "\x27)"

/-- The condition conjunct excluding a configured auto-approve label (line 115). -/
def labelCondStr (label : String) : String :=
  "!" ++ labelsExprHead ++ label ++ labelsExprTail

/-- The constructor-built condition list for the self-mutation job (lines
102-116): the diff-exists output, not-a-fork, and — when an auto-approve label
is configured on the project — the label exclusion. -/
def mkConditions (project : Project) : List String :=
  [diffOutputExpr, NOT_FORK]
    ++ (match project.autoApprove with
        | some label => [labelCondStr label]
        | none => [])

/-- JavaScript Array.prototype.join with the given separator. -/
def joinSep (sep : String) : List String → String
  | [] => ""
  | [x] => x
  | x :: xs => x ++ sep ++ joinSep sep xs

/-- The checkout step of the build job (lines 276-283). -/
def buildCheckoutStep : JobStep :=
  { name := some "Checkout", uses := some "actions/checkout@v2",
    withRef := some PULL_REQUEST_REF, withRepository := some PULL_REQUEST_REPOSITORY }

/-- The command of the diff step (line 297): a failing staged diff is converted
into setting the diff-exists output instead of failing the step. -/
def diffRunCommand : String :=
  "git diff --staged --exit-code || echo \"::set-output name=" ++ DIFF_EXISTS ++ "::true\""

/-- The diff step of the build job (lines 294-298). -/
def diffStep : JobStep :=
  { name := some "diff", id := some DIFF_STEP, run := some diffRunCommand }

/-- The condition of the patch-upload step (line 301). -/
def patchCondition : String :=
  "$\x7b\x7b steps." ++ DIFF_STEP ++ ".outputs." ++ DIFF_EXISTS ++ " \x7d\x7d"

/-- The condition of the artifact-upload step (line 309). -/
def uploadArtifactCondition : String :=
  "$\x7b\x7b ! steps." ++ DIFF_STEP ++ ".outputs." ++ DIFF_EXISTS ++ " \x7d\x7d"

/-- The artifact-upload step of the build job (lines 306-314). -/
def uploadArtifactStep (artifactsDirectory : String) : JobStep :=
  { name := some "Upload artifact", uses := some "actions/upload-artifact@v2.1.1",
    stepIf := some uploadArtifactCondition,
    withName := some BUILD_ARTIFACT_NAME, withPath := some artifactsDirectory }

/-- Lazy render of the build job steps (`renderBuildSteps`, lines 274-316):
checkout of the triggering ref, pre-build steps, the build task (its declared
name is the step display name), post-build steps, the diff step, the patch
upload, and — only when post-build jobs have been registered — the artifact
upload of the artifacts directory. -/
def renderBuildSteps (bw : BuildWorkflow) : List JobStep :=
  [buildCheckoutStep]
    ++ bw.preBuildSteps
    ++ [{ name := some bw.buildTask.name,
          run := some (bw.github.project.runTaskCommand bw.buildTask) }]
    ++ bw.postBuildSteps
    ++ [diffStep]
    ++ WorkflowActions.createUploadGitPatch patchCondition
    ++ (if bw._postBuildJobs.length = 0 then []
        else [uploadArtifactStep bw.artifactsDirectory])

/-- The build job record registered by `addBuildJob` (lines 132-151); its step
list is the lazy thunk. -/
def buildJobOf (options : BuildWorkflowOptions) : Job :=
  { runsOn := ["ubuntu-latest"],
    container := options.containerImage,
    env := ("CI", "true") :: options.env,
    permissions := { contents := some .write },
    steps := .lazyRender,
    outputs := [(DIFF_EXISTS, { stepId := DIFF_STEP, outputName := DIFF_EXISTS })] }

/-- `addBuildJob` (lines 132-151). -/
def addBuildJob (bw : BuildWorkflow) (options : BuildWorkflowOptions) :
    Except String BuildWorkflow :=
  (bw.workflow.addJob BUILD_JOBID (buildJobOf options)).map
    (fun wf => { bw with workflow := wf })

/-- The job-level condition of the self-mutation job: the constructor-built
condition list joined with the AND operator and wrapped (line 215). -/
def selfMutationCondition (conditions : List String) : String :=
  "$\x7b\x7b " ++ joinSep "&&" conditions ++ " \x7d\x7d"

/-- The push step of the self-mutation job (lines 224-231). -/
def pushChangesStep : JobStep :=
  { name := some "Push changes",
    run := some ("  git add .\n  git commit -m \"chore: self mutation\"\n  git push origin HEAD:"
      ++ PULL_REQUEST_REF) }

/-- The self-mutation job record (lines 208-234): privileged checkout with the
projen token, identity stamping, and the push of the mutation. -/
def selfMutationJobOf (conditions : List String) (tokenSecret : String)
    (gitIdentity : GitIdentity) : Job :=
  { runsOn := ["ubuntu-latest"],
    permissions := { contents := some .write },
    needs := some [BUILD_JOBID],
    jobIf := some (selfMutationCondition conditions),
    steps := .concrete
      (WorkflowActions.checkoutWithPatch (some (tokenRef tokenSecret))
          (some PULL_REQUEST_REF) (some PULL_REQUEST_REPOSITORY)
        ++ WorkflowActions.setGitIdentity gitIdentity
        ++ [pushChangesStep]) }

/-- `addSelfMutationJob` (lines 208-234). -/
def addSelfMutationJob (bw : BuildWorkflow) : Except String BuildWorkflow :=
  (bw.workflow.addJob "self-mutation"
      (selfMutationJobOf bw.conditions bw.workflow.projenTokenSecret bw.gitIdentity)).map
    (fun wf => { bw with workflow := wf })

/-- The anti-tamper job-level condition (lines 249-251): drift exists, and —
when the only-forks toggle is set — the change originates from a fork. -/
def antiTamperCondition (onlyForks : Bool) : String :=
  if onlyForks then
    "$\x7b\x7b " ++ diffOutputExpr ++ " && " ++ IS_FORK ++ " \x7d\x7d"
  else
    "$\x7b\x7b " ++ diffOutputExpr ++ " \x7d\x7d"

/-- The anti-tamper job record (lines 253-268): fresh unprivileged checkout and
a failing staged diff check; the empty permission block grants nothing. -/
def antiTamperJobOf (onlyForks : Bool) : Job :=
  { runsOn := ["ubuntu-latest"],
    jobIf := some (antiTamperCondition onlyForks),
    permissions := {},
    needs := some [BUILD_JOBID],
    steps := .concrete
      (WorkflowActions.checkoutWithPatch none (some PULL_REQUEST_REF)
          (some PULL_REQUEST_REPOSITORY)
        ++ [{ name := some "Found diff after build (update your branch)",
              run := some "git diff --staged --exit-code" }]) }

/-- `addAntiTamperJob` (lines 239-269). -/
def addAntiTamperJob (bw : BuildWorkflow) : Except String BuildWorkflow :=
  (bw.workflow.addJob "anti-tamper" (antiTamperJobOf bw.onlyForks)).map
    (fun wf => { bw with workflow := wf })

/-- The BuildWorkflow constructor (lines 86-130): requires the GitHub
collaborator (fatal otherwise), stores the options with their defaults, builds
the self-mutation condition list, creates the workflow with pull-request and
manual-dispatch triggers, adds the build job, adds the anti-tamper job
unconditionally, and adds the self-mutation job when mutable builds are enabled
(the default). -/
def create (project : Project) (options : BuildWorkflowOptions) :
    Except String BuildWorkflow :=
  match GitHub.of project with
  | none => .error "BuildWorkflow is currently only supported for GitHub projects"
  | some github =>
    let bw : BuildWorkflow :=
      { project, github,
        workflow := { name := "build", triggers := ["pull_request", "workflow_dispatch"] },
        preBuildSteps := options.preBuildSteps,
        postBuildSteps := options.postBuildSteps,
        gitIdentity := options.gitIdentity.getD DEFAULT_GITHUB_ACTIONS_USER,
        buildTask := options.buildTask,
        artifactsDirectory := options.artifactsDirectory,
        mutableBuilds := options.mutableBuild.getD true,
        conditions := mkConditions project,
        onlyForks := options.onlyForks,
        _postBuildJobs := [] }
    match addBuildJob bw options with
    | .error e => .error e
    | .ok bw1 =>
      match addAntiTamperJob bw1 with
      | .error e => .error e
      | .ok bw2 => if bw2.mutableBuilds then addSelfMutationJob bw2 else .ok bw2

/-- Getter `buildJobIds` (lines 156-158). -/
def buildJobIds (bw : BuildWorkflow) : List String :=
  BUILD_JOBID :: bw._postBuildJobs

/-- `addPostBuildSteps` (lines 164-166). -/
def addPostBuildSteps (bw : BuildWorkflow) (steps : List JobStep) : BuildWorkflow :=
  { bw with postBuildSteps := bw.postBuildSteps ++ steps }

/-- The artifact-download step prepended to post-build jobs (lines 183-190). -/
def downloadArtifactStep (artifactsDirectory : String) : JobStep :=
  { name := some "Download build artifacts", uses := some "actions/download-artifact@v2",
    withName := some BUILD_ARTIFACT_NAME, withPath := some artifactsDirectory }

/-- The default run condition of post-build jobs (line 198): only run when the
build produced no drift. -/
def postBuildCondition : String :=
  "$\x7b\x7b ! " ++ diffOutputExpr ++ " \x7d\x7d"

/-- The concrete step list carried by a job record. -/
def Job.stepsList (job : Job) : List JobStep :=
  match job.steps with
  | .concrete s => s
  | .lazyRender => []

/-- The job record `addPostBuildJob` registers (lines 193-201): the artifact
download is prepended when an artifacts directory is configured (JavaScript
truthiness: the empty string counts as unset), the caller steps follow, the
default dependency and no-diff condition are placed before the caller-supplied
record in the spread (so caller needs/if win), and the step list is always
replaced. -/
def postJobRecord (bw : BuildWorkflow) (job : Job) : Job :=
  { job with
    needs := some (job.needs.getD [BUILD_JOBID]),
    jobIf := some (job.jobIf.getD postBuildCondition),
    steps := .concrete
      ((if bw.artifactsDirectory = "" then []
        else [downloadArtifactStep bw.artifactsDirectory]) ++ job.stepsList) }

/-- `addPostBuildJob` (lines 179-205); on success the id is recorded in the
post-build job list. -/
def addPostBuildJob (bw : BuildWorkflow) (id : String) (job : Job) :
    Except String BuildWorkflow :=
  match bw.workflow.addJob id (postJobRecord bw job) with
  | .error e => .error e
  | .ok wf => .ok { bw with workflow := wf, _postBuildJobs := bw._postBuildJobs ++ [id] }

/-- Resolve a job's step list at synthesis time: the build job's thunk reads the
final component state (lazy render), every other job carries concrete steps. -/
def jobStepsIn (bw : BuildWorkflow) (job : Job) : List JobStep :=
  match job.steps with
  | .concrete s => s
  | .lazyRender => renderBuildSteps bw

/-- Look up a job on the workflow by id. -/
def findJob (wf : GithubWorkflow) (id : String) : Option Job :=
  (wf.jobs.find? (fun p => p.1 == id)).map Prod.snd

/-- A caller interaction with the component after construction: contributing
post-build steps or registering a post-build job. -/
inductive BuildOp where
  | postSteps (steps : List JobStep)
  | postJob (id : String) (job : Job)
deriving DecidableEq

/-- Apply one caller operation; a registration rejected by the workflow host
(duplicate job id) leaves the state unchanged. -/
def applyOp (bw : BuildWorkflow) : BuildOp → BuildWorkflow
  | .postSteps steps => addPostBuildSteps bw steps
  | .postJob id job =>
    match addPostBuildJob bw id job with
    | .ok bw2 => bw2
    | .error _ => bw

/-- Apply a sequence of caller operations in order. -/
def runOps (bw : BuildWorkflow) (ops : List BuildOp) : BuildWorkflow :=
  ops.foldl applyOp bw

/-- Modelled from the spec: the run-time facts of one pipeline execution that
the emitted conditions reference (spec section 4.1): the diff signal, whether
the triggering change originates from a fork, and the labels carried by the
triggering pull request. -/
structure GHCtx where
  diffExists : Bool
  isFork : Bool
  labels : List String
deriving DecidableEq

/-- Remove an exact prefix from a character list, when present. -/
def stripPre : List Char → List Char → Option (List Char)
  | [], cs => some cs
  | _ :: _, [] => none
  | a :: as, c :: cs => if a = c then stripPre as cs else none

/-- Remove an exact suffix from a character list, when present. -/
def stripSuf (suf cs : List Char) : Option (List Char) :=
  (stripPre suf.reverse cs.reverse).map List.reverse

/-- Split a character list at every occurrence of the two-character AND
operator, left to right (JavaScript split semantics on that separator). -/
def splitAmp (acc : List Char) : List Char → List (List Char)
  | [] => [acc.reverse]
  | [c] => [(c :: acc).reverse]
  | c1 :: c2 :: cs =>
    if c1 = '&' ∧ c2 = '&' then acc.reverse :: splitAmp [] cs
    else splitAmp (c1 :: acc) (c2 :: cs)

/-- Whether a character list contains the two-character AND operator. -/
def hasAmpAmp : List Char → Bool
  | [] => false
  | [_] => false
  | c1 :: c2 :: cs => (c1 == '&' && c2 == '&') || hasAmpAmp (c2 :: cs)

/-- Whether a character list ends in an ampersand. -/
def endsAmp : List Char → Bool
  | [] => false
  | [c] => c == '&'
  | _ :: c :: cs => endsAmp (c :: cs)

/-- Space test for trimming. -/
def isSp (c : Char) : Bool := c == ' '

/-- Drop leading spaces. -/
def dropLead (cs : List Char) : List Char := cs.dropWhile isSp

/-- Drop trailing spaces. -/
def dropTrail (cs : List Char) : List Char := (cs.reverse.dropWhile isSp).reverse

/-- Trim spaces on both ends. -/
def trimC (cs : List Char) : List Char := dropTrail (dropLead cs)

/-- The step-level diff-exists output reference used inside the build job. -/
def stepDiffOutputExpr : String := "steps." ++ DIFF_STEP ++ ".outputs." ++ DIFF_EXISTS

/-- Modelled from the spec: evaluation of one primitive fact of the condition
surface by the external executor (spec sections 4.1 and 6): the diff test, the
fork test and the label-containment test; anything else is not a fact the core
emits and evaluates false. -/
def evalPrimC (ctx : GHCtx) (cs : List Char) : Bool :=
  if cs = diffOutputExpr.data then ctx.diffExists
  else if cs = stepDiffOutputExpr.data then ctx.diffExists
  else if cs = IS_FORK.data then ctx.isFork
  else
    Option.elim
      ((stripPre labelsExprHead.data cs).bind (fun rest => stripSuf labelsExprTail.data rest))
      false (fun label => ctx.labels.contains (String.mk label))

/-- Modelled from the spec: evaluation of one conjunct — a primitive fact,
possibly negated (with or without explicit grouping), surrounded by optional
spaces. -/
def evalAtomC (ctx : GHCtx) (cs0 : List Char) : Bool :=
  match trimC cs0 with
  | '!' :: '(' :: rest =>
    match stripSuf [')'] rest with
    | some inner => !evalPrimC ctx (trimC inner)
    | none => false
  | '!' :: rest => !evalPrimC ctx (trimC rest)
  | cs => evalPrimC ctx cs

/-- Modelled from the spec: evaluation of a rendered condition string by the
external executor — the templated wrapper is stripped when present and the body
is the logical AND of its conjuncts (spec section 6, composition). -/
def evalCond (ctx : GHCtx) (s : String) : Bool :=
  let inner :=
    ((stripPre "$\x7b\x7b ".data s.data).bind
        (fun rest => stripSuf " \x7d\x7d".data rest)).getD s.data
  (splitAmp [] inner).all (fun a => evalAtomC ctx a)

/-- Modelled from the spec: whether a job whose dependencies completed runs in
the given execution context — a job without a condition always runs, one with a
condition runs when it evaluates true (spec section 5, ready-set scheduler). -/
def jobRuns (ctx : GHCtx) (job : Job) : Bool :=
  match job.jobIf with
  | none => true
  | some s => evalCond ctx s

/-- Result of interpreting an inline command: its exit code and the named
outputs it emitted. -/
structure CmdResult where
  exitCode : Nat
  outputs : List (String × String)
deriving DecidableEq

/-- Modelled from the spec: the staged-diff comparison — exit code zero exactly
when no staged/tracked changes exist, non-zero otherwise (structural tree
comparison, spec section 4.2 step 5). -/
def gitDiffStagedExit (stagedChanges : Bool) : Nat :=
  if stagedChanges then 1 else 0

/-- Split a character list at every two-colon separator of the set-output body. -/
def splitCol (acc : List Char) : List Char → List (List Char)
  | ':' :: ':' :: cs => acc.reverse :: splitCol [] cs
  | c :: cs => splitCol (c :: acc) cs
  | [] => [acc.reverse]

/-- Modelled from the spec: interpretation of one shell command appearing in the
diff step — the staged-diff comparison, or an echo of a set-output directive
(which always succeeds and records the named output). -/
def interpCmdC (stagedChanges : Bool) (cs0 : List Char) : CmdResult :=
  let cs := trimC cs0
  if cs = "git diff --staged --exit-code".data then
    { exitCode := gitDiffStagedExit stagedChanges, outputs := [] }
  else
    match stripPre "echo \"::set-output name=".data cs with
    | some rest =>
      match stripSuf ['\"'] rest with
      | some body =>
        match splitCol [] body with
        | [n, v] => { exitCode := 0, outputs := [(String.mk n, String.mk v)] }
        | _ => { exitCode := 0, outputs := [] }
      | none => { exitCode := 127, outputs := [] }
    | none => { exitCode := 127, outputs := [] }

/-- Split a command line at every shell OR operator. -/
def splitPipe (acc : List Char) : List Char → List (List Char)
  | ' ' :: '|' :: '|' :: ' ' :: cs => acc.reverse :: splitPipe [] cs
  | c :: cs => splitPipe (c :: acc) cs
  | [] => [acc.reverse]

/-- Modelled from the spec: shell OR-chain semantics — commands run left to
right until one exits zero; the chain's exit code is the last command run, and
outputs emitted along the way are kept. -/
def runSeqOr (stagedChanges : Bool) : List (List Char) → CmdResult
  | [] => { exitCode := 0, outputs := [] }
  | [c] => interpCmdC stagedChanges c
  | c :: cs =>
    let r := interpCmdC stagedChanges c
    if r.exitCode = 0 then r
    else
      let r2 := runSeqOr stagedChanges cs
      { exitCode := r2.exitCode, outputs := r.outputs ++ r2.outputs }

/-- Modelled from the spec: interpretation of an inline run command built from
the diff-step grammar, given whether staged changes exist after the build. -/
def interpRun (s : String) (stagedChanges : Bool) : CmdResult :=
  runSeqOr stagedChanges (splitPipe [] s.data)

/-- Substring occurrence test on character lists. -/
def isPrefixChars : List Char → List Char → Bool
  | [], _ => true
  | _ :: _, [] => false
  | a :: as, b :: bs => a == b && isPrefixChars as bs

/-- Substring occurrence test. -/
def occursC (pat : List Char) : List Char → Bool
  | [] => pat.isEmpty
  | c :: cs => isPrefixChars pat (c :: cs) || occursC pat cs

/-- Whether a pattern occurs in a string. -/
def occursS (pat s : String) : Bool := occursC pat.data s.data

/-- Whether a pattern occurs in an optional string field. -/
def mentionsOpt (pat : String) (o : Option String) : Bool :=
  match o with
  | some s => occursS pat s
  | none => false

/-- Whether any textual field of a step mentions the given pattern. -/
def stepMentions (pat : String) (st : JobStep) : Bool :=
  mentionsOpt pat st.name || mentionsOpt pat st.id || mentionsOpt pat st.uses
    || mentionsOpt pat st.run || mentionsOpt pat st.stepIf || mentionsOpt pat st.withRef
    || mentionsOpt pat st.withRepository || mentionsOpt pat st.withToken
    || mentionsOpt pat st.withName || mentionsOpt pat st.withPath

/-- Concatenation of strings concatenates their character lists. -/
theorem data_append (a b : String) : (a ++ b).data = a.data ++ b.data := rfl

/-- Removing a prefix that is literally present succeeds. -/
theorem stripPre_self_append (p rest : List Char) : stripPre p (p ++ rest) = some rest := by
  induction p with
  | nil => rfl
  | cons a as ih => simp [stripPre, ih]

/-- Removing a suffix that is literally present succeeds. -/
theorem stripSuf_self_append (suf xs : List Char) : stripSuf suf (xs ++ suf) = some xs := by
  simp [stripSuf, List.reverse_append, stripPre_self_append]

/-- Splitting a list free of the AND operator yields a single fragment. -/
theorem splitAmp_noamp (xs : List Char) (h : hasAmpAmp xs = false) (acc : List Char) :
    splitAmp acc xs = [acc.reverse ++ xs] := by
  induction xs generalizing acc with
  | nil => simp [splitAmp]
  | cons c cs ih =>
    cases cs with
    | nil => simp [splitAmp]
    | cons c2 cs2 =>
      rw [hasAmpAmp] at h
      simp only [Bool.or_eq_false_iff, Bool.and_eq_false_iff, beq_eq_false_iff_ne] at h
      rw [splitAmp, if_neg (by tauto)]
      rw [ih h.2 (c :: acc)]
      simp

/-- Splitting at a literal AND separator after an operator-free fragment that
does not end in an ampersand emits that fragment first. -/
theorem splitAmp_sep (xs : List Char) (h1 : hasAmpAmp xs = false)
    (h2 : endsAmp xs = false) (acc ys : List Char) :
    splitAmp acc (xs ++ '&' :: '&' :: ys) = (acc.reverse ++ xs) :: splitAmp [] ys := by
  induction xs generalizing acc with
  | nil => simp [splitAmp]
  | cons c cs ih =>
    cases cs with
    | nil =>
      rw [endsAmp] at h2
      simp only [beq_eq_false_iff_ne] at h2
      rw [List.cons_append, List.nil_append]
      rw [splitAmp, if_neg (by tauto)]
      rw [splitAmp, if_pos ⟨rfl, rfl⟩]
      simp
    | cons c2 cs2 =>
      rw [hasAmpAmp] at h1
      simp only [Bool.or_eq_false_iff, Bool.and_eq_false_iff, beq_eq_false_iff_ne] at h1
      rw [endsAmp] at h2
      rw [List.cons_append]
      rw [show (c2 :: cs2) ++ '&' :: '&' :: ys = c2 :: (cs2 ++ '&' :: '&' :: ys) from rfl]
      rw [splitAmp, if_neg (by tauto)]
      rw [show c2 :: (cs2 ++ '&' :: '&' :: ys) = (c2 :: cs2) ++ '&' :: '&' :: ys from rfl]
      rw [ih h1.2 h2 (c :: acc)]
      simp

/-- A list whose head is not a space is unchanged by leading trim. -/
theorem dropLead_eq_self (cs : List Char) (h : cs.head? ≠ some ' ') : dropLead cs = cs := by
  cases cs with
  | nil => rfl
  | cons c cs =>
    have hc : isSp c = false := by
      simp only [List.head?_cons, ne_eq, Option.some.injEq] at h
      simp [isSp, h]
    simp [dropLead, List.dropWhile_cons, hc]

/-- A list whose last element is not a space is unchanged by trailing trim. -/
theorem dropTrail_eq_self (cs : List Char) (h : cs.getLast? ≠ some ' ') : dropTrail cs = cs := by
  rcases hr : cs.reverse with - | ⟨c, rest⟩
  · have : cs = [] := by simpa using congrArg List.reverse hr
    subst this
    rfl
  · have hc : isSp c = false := by
      rw [← List.head?_reverse, hr] at h
      simp only [List.head?_cons, ne_eq, Option.some.injEq] at h
      simp [isSp, h]
    rw [dropTrail, hr, List.dropWhile_cons, hc]
    simp only [if_false, Bool.false_eq_true]
    rw [← hr, List.reverse_reverse]

/-- A list with no space at either end is unchanged by trimming. -/
theorem trimC_eq_self (cs : List Char) (h1 : cs.head? ≠ some ' ')
    (h2 : cs.getLast? ≠ some ' ') : trimC cs = cs := by
  rw [trimC, dropLead_eq_self cs h1, dropTrail_eq_self cs h2]

/-- Evaluation of the diff-exists conjunct. -/
theorem evalAtomC_diff (ctx : GHCtx) : evalAtomC ctx diffOutputExpr.data = ctx.diffExists := rfl

/-- Evaluation of the negated fork-test conjunct. -/
theorem evalAtomC_notFork (ctx : GHCtx) : evalAtomC ctx NOT_FORK.data = !ctx.isFork := rfl

/-- The label-containment fact evaluates to the label-containment test, for an
arbitrary configured label. -/
theorem evalPrimC_label (ctx : GHCtx) (l : String) :
    evalPrimC ctx (labelsExprHead.data ++ (l.data ++ labelsExprTail.data))
      = ctx.labels.contains l := by
  show Option.elim
      ((stripPre labelsExprHead.data
          (labelsExprHead.data ++ (l.data ++ labelsExprTail.data))).bind
        (fun rest => stripSuf labelsExprTail.data rest))
      false (fun label => ctx.labels.contains (String.mk label))
    = ctx.labels.contains l
  rw [stripPre_self_append, Option.some_bind, stripSuf_self_append, Option.elim_some]

/-- The label-exclusion conjunct evaluates to the negated label-containment
test, for an arbitrary configured label. -/
theorem evalAtomC_label (ctx : GHCtx) (l : String) :
    evalAtomC ctx (labelCondStr l).data = !(ctx.labels.contains l) := by
  have hrest_head : (labelsExprHead.data ++ (l.data ++ labelsExprTail.data)).head?
      = some 'c' := by
    rw [List.head?_append_of_ne_nil _ (by decide)]
    decide
  have hTne : labelsExprTail.data ≠ [] := by decide
  have hXne : l.data ++ labelsExprTail.data ≠ [] := fun h => hTne (List.append_eq_nil.mp h).2
  have hrest_last : (labelsExprHead.data ++ (l.data ++ labelsExprTail.data)).getLast?
      = some ')' := by
    rw [List.getLast?_append_of_ne_nil _ hXne, List.getLast?_append_of_ne_nil _ hTne]
    decide
  have hdata : (labelCondStr l).data
      = '!' :: (labelsExprHead.data ++ (l.data ++ labelsExprTail.data)) := by
    simp only [labelCondStr, data_append, List.append_assoc]
    rfl
  have hrestne : labelsExprHead.data ++ (l.data ++ labelsExprTail.data) ≠ [] := by
    intro h
    have := congrArg List.head? h
    rw [hrest_head] at this
    simp at this
  have htrim0 : trimC ((labelCondStr l).data) = (labelCondStr l).data := by
    apply trimC_eq_self
    · rw [hdata]
      simp
    · rw [hdata]
      rcases hsh : labelsExprHead.data ++ (l.data ++ labelsExprTail.data) with - | ⟨c, cs⟩
      · exact absurd hsh hrestne
      · rw [List.getLast?_cons_cons, ← hsh, hrest_last]
        simp
  have htrim1 : trimC (labelsExprHead.data ++ (l.data ++ labelsExprTail.data))
      = labelsExprHead.data ++ (l.data ++ labelsExprTail.data) := by
    apply trimC_eq_self
    · rw [hrest_head]
      simp
    · rw [hrest_last]
      simp
  unfold evalAtomC
  rw [htrim0, hdata]
  show (!evalPrimC ctx (trimC (labelsExprHead.data ++ (l.data ++ labelsExprTail.data))))
    = !(ctx.labels.contains l)
  rw [htrim1, evalPrimC_label]

/-- Evaluation of a wrapped condition is the conjunction of its body conjuncts. -/
theorem evalCond_wrap (ctx : GHCtx) (body : String) :
    evalCond ctx ("$\x7b\x7b " ++ body ++ " \x7d\x7d")
      = (splitAmp [] body.data).all (fun a => evalAtomC ctx a) := by
  simp only [evalCond, data_append, List.append_assoc]
  rw [stripPre_self_append, Option.some_bind, stripSuf_self_append, Option.getD_some]

/-- The self-mutation condition evaluates to the conjunction the constructor
assembled: drift exists, the change is not from a fork, and — when an
auto-approve label is configured whose rendered conjunct is free of the AND
operator — the pull request does not carry that label. -/
theorem evalCond_selfMutation (ctx : GHCtx) (p : Project)
    (hl : ∀ l, p.autoApprove = some l → hasAmpAmp (labelCondStr l).data = false) :
    evalCond ctx (selfMutationCondition (mkConditions p))
      = (ctx.diffExists && (!ctx.isFork
          && (match p.autoApprove with
              | some l => !(ctx.labels.contains l)
              | none => true))) := by
  rcases hp : p.autoApprove with - | l
  · have hc : mkConditions p = [diffOutputExpr, NOT_FORK] := by simp [mkConditions, hp]
    rw [hc]
    rcases ctx with ⟨d, f, L⟩
    cases d <;> cases f <;> rfl
  · have hc : mkConditions p = [diffOutputExpr, NOT_FORK, labelCondStr l] := by
      simp [mkConditions, hp]
    rw [hc]
    simp only [selfMutationCondition, joinSep]
    rw [evalCond_wrap]
    simp only [data_append]
    simp only [List.append_assoc, List.cons_append, List.nil_append]
    rw [splitAmp_sep diffOutputExpr.data (by decide) (by decide)]
    rw [splitAmp_sep NOT_FORK.data (by decide) (by decide)]
    rw [splitAmp_noamp _ (hl l hp)]
    simp only [List.all_cons, List.all_nil, List.reverse_nil, List.nil_append]
    rw [evalAtomC_diff, evalAtomC_notFork, evalAtomC_label]
    simp [Bool.and_assoc]

/-- When no drift exists the self-mutation condition evaluates false, for every
project configuration. -/
theorem evalCond_selfMutation_noDiff (ctx : GHCtx) (p : Project)
    (hd : ctx.diffExists = false) :
    evalCond ctx (selfMutationCondition (mkConditions p)) = false := by
  rcases hp : p.autoApprove with - | l
  · have hc : mkConditions p = [diffOutputExpr, NOT_FORK] := by simp [mkConditions, hp]
    rw [hc]
    rcases ctx with ⟨d, f, L⟩
    cases d
    · cases f <;> rfl
    · simp at hd
  · have hc : mkConditions p = [diffOutputExpr, NOT_FORK, labelCondStr l] := by
      simp [mkConditions, hp]
    rw [hc]
    simp only [selfMutationCondition, joinSep]
    rw [evalCond_wrap]
    simp only [data_append]
    simp only [List.append_assoc, List.cons_append, List.nil_append]
    rw [splitAmp_sep diffOutputExpr.data (by decide) (by decide)]
    simp only [List.all_cons, List.reverse_nil, List.nil_append]
    rw [evalAtomC_diff, hd]
    simp

/-- The anti-tamper condition evaluates to: drift exists, and — when the
only-forks toggle is set — the change originates from a fork. -/
theorem evalCond_antiTamper (ctx : GHCtx) (onlyForks : Bool) :
    evalCond ctx (antiTamperCondition onlyForks)
      = (ctx.diffExists && (!onlyForks || ctx.isFork)) := by
  rcases ctx with ⟨d, f, L⟩
  cases onlyForks <;> cases d <;> cases f <;> rfl

/-- The default post-build condition evaluates to the negated diff signal. -/
theorem evalCond_postBuild (ctx : GHCtx) :
    evalCond ctx postBuildCondition = !ctx.diffExists := by
  rcases ctx with ⟨d, f, L⟩
  cases d <;> rfl

/-- The job list the constructor registers, in order: build, anti-tamper, and —
when mutable builds are enabled — self-mutation. -/
def createdWorkflowJobs (p : Project) (opts : BuildWorkflowOptions) : List (String × Job) :=
  [(BUILD_JOBID, buildJobOf opts), ("anti-tamper", antiTamperJobOf opts.onlyForks)]
    ++ (if opts.mutableBuild.getD true then
          [("self-mutation",
            selfMutationJobOf (mkConditions p) "PROJEN_GITHUB_TOKEN"
              (opts.gitIdentity.getD DEFAULT_GITHUB_ACTIONS_USER))]
        else [])

/-- The component state the constructor produces on a GitHub project. -/
def createdBW (p : Project) (opts : BuildWorkflowOptions) : BuildWorkflow :=
  { project := p, github := { project := p },
    workflow := { name := "build", triggers := ["pull_request", "workflow_dispatch"],
                  jobs := createdWorkflowJobs p opts },
    preBuildSteps := opts.preBuildSteps,
    postBuildSteps := opts.postBuildSteps,
    gitIdentity := opts.gitIdentity.getD DEFAULT_GITHUB_ACTIONS_USER,
    buildTask := opts.buildTask,
    artifactsDirectory := opts.artifactsDirectory,
    mutableBuilds := opts.mutableBuild.getD true,
    conditions := mkConditions p,
    onlyForks := opts.onlyForks,
    _postBuildJobs := [] }

/-- On a project with the GitHub collaborator, construction succeeds and yields
exactly the created state. -/
theorem create_ok (p : Project) (opts : BuildWorkflowOptions) (h : p.hasGitHub = true) :
    create p opts = .ok (createdBW p opts) := by
  rcases p with ⟨hg, lbl⟩
  cases hg
  · simp at h
  · rcases opts with ⟨task, dir, ci, mb, pre, post, gid, env, onlyF⟩
    rcases mb with - | b
    · rfl
    · cases b
      · rfl
      · rfl

/-- Construction on a project without the GitHub collaborator fails immediately
with the dedicated error message. -/
theorem create_noGithub (p : Project) (opts : BuildWorkflowOptions)
    (h : p.hasGitHub = false) :
    create p opts = .error "BuildWorkflow is currently only supported for GitHub projects" := by
  rcases p with ⟨hg, lbl⟩
  cases hg
  · rfl
  · simp at h

/-- Characterization of a successful registration on the workflow host. -/
theorem addJob_ok {wf : GithubWorkflow} {id : String} {j : Job} {wf' : GithubWorkflow}
    (h : GithubWorkflow.addJob wf id j = .ok wf') :
    id ∉ wfIds wf ∧ wf' = { wf with jobs := wf.jobs ++ [(id, j)] } := by
  unfold GithubWorkflow.addJob at h
  split at h
  case isTrue hc => exact absurd h (by simp)
  case isFalse hc =>
    constructor
    · intro hm
      exact hc (by simpa [List.contains, List.elem_iff] using hm)
    · injection h with h
      exact h.symm

/-- A job found on the workflow is still found, unchanged, after any further
registration. -/
theorem findJob_addJob_preserve {wf wf' : GithubWorkflow} {id0 id : String}
    {j' j : Job} (hf : findJob wf id0 = some j)
    (h : GithubWorkflow.addJob wf id j' = .ok wf') :
    findJob wf' id0 = some j := by
  obtain ⟨-, rfl⟩ := addJob_ok h
  unfold findJob at hf ⊢
  rw [List.find?_append]
  rcases hq : wf.jobs.find? (fun q => q.1 == id0) with - | q
  · rw [hq] at hf
    simp at hf
  · rw [hq] at hf
    rw [hq, Option.or_some]
    exact hf

/-- A successful registration is found on the resulting workflow. -/
theorem findJob_addJob_self {wf wf' : GithubWorkflow} {id : String} {j : Job}
    (h : GithubWorkflow.addJob wf id j = .ok wf') :
    findJob wf' id = some j := by
  obtain ⟨hni, rfl⟩ := addJob_ok h
  unfold findJob
  rw [List.find?_append]
  have hnone : wf.jobs.find? (fun q => q.1 == id) = none := by
    rw [List.find?_eq_none]
    intro x hx
    simp only [beq_iff_eq]
    intro he
    exact hni (by exact List.mem_map.mpr ⟨x, hx, he⟩)
  rw [hnone]
  simp [List.find?]

/-- Characterization of a successful post-build registration. -/
theorem addPostBuildJob_ok {bw : BuildWorkflow} {id : String} {job : Job}
    {bw' : BuildWorkflow} (h : addPostBuildJob bw id job = .ok bw') :
    ∃ wf', GithubWorkflow.addJob bw.workflow id (postJobRecord bw job) = .ok wf'
      ∧ bw' = { bw with workflow := wf', _postBuildJobs := bw._postBuildJobs ++ [id] } := by
  unfold addPostBuildJob at h
  rcases haj : GithubWorkflow.addJob bw.workflow id (postJobRecord bw job) with e | wf'
  · rw [haj] at h
    simp at h
  · rw [haj] at h
    simp only [Except.ok.injEq] at h
    exact ⟨wf', rfl, h.symm⟩

/-- A projection of the component state unchanged by every caller operation is
unchanged by any sequence of them. -/
theorem runOps_pres {α : Type} (f : BuildWorkflow → α)
    (hf : ∀ bw op, f (applyOp bw op) = f bw) (bw : BuildWorkflow) (ops : List BuildOp) :
    f (runOps bw ops) = f bw := by
  induction ops generalizing bw with
  | nil => rfl
  | cons op ops ih =>
    rw [runOps, List.foldl_cons]
    rw [show List.foldl applyOp (applyOp bw op) ops = runOps (applyOp bw op) ops from rfl]
    rw [ih, hf]

/-- Fields of a post-build-registration result. -/
theorem applyOp_postJob_cases (bw : BuildWorkflow) (id : String) (job : Job) :
    applyOp bw (.postJob id job) = bw
      ∨ ∃ wf', GithubWorkflow.addJob bw.workflow id (postJobRecord bw job) = .ok wf'
          ∧ applyOp bw (.postJob id job)
            = { bw with workflow := wf', _postBuildJobs := bw._postBuildJobs ++ [id] } := by
  simp only [applyOp]
  rcases haj : addPostBuildJob bw id job with e | bw2
  · exact Or.inl rfl
  · obtain ⟨wf', h1, h2⟩ := addPostBuildJob_ok haj
    exact Or.inr ⟨wf', h1, h2⟩

/-- One caller operation never changes the construction-time fields. -/
theorem applyOp_const (bw : BuildWorkflow) (op : BuildOp) :
    (applyOp bw op).preBuildSteps = bw.preBuildSteps
    ∧ (applyOp bw op).buildTask = bw.buildTask
    ∧ (applyOp bw op).github = bw.github
    ∧ (applyOp bw op).artifactsDirectory = bw.artifactsDirectory
    ∧ (applyOp bw op).mutableBuilds = bw.mutableBuilds := by
  cases op with
  | postSteps s => exact ⟨rfl, rfl, rfl, rfl, rfl⟩
  | postJob id job =>
    rcases applyOp_postJob_cases bw id job with h | ⟨wf', -, h⟩ <;>
      rw [h] <;> exact ⟨rfl, rfl, rfl, rfl, rfl⟩

/-- A sequence of caller operations never changes the construction-time fields. -/
theorem runOps_const (bw : BuildWorkflow) (ops : List BuildOp) :
    (runOps bw ops).preBuildSteps = bw.preBuildSteps
    ∧ (runOps bw ops).buildTask = bw.buildTask
    ∧ (runOps bw ops).github = bw.github
    ∧ (runOps bw ops).artifactsDirectory = bw.artifactsDirectory
    ∧ (runOps bw ops).mutableBuilds = bw.mutableBuilds :=
  ⟨runOps_pres _ (fun bw op => (applyOp_const bw op).1) bw ops,
   runOps_pres _ (fun bw op => (applyOp_const bw op).2.1) bw ops,
   runOps_pres _ (fun bw op => (applyOp_const bw op).2.2.1) bw ops,
   runOps_pres _ (fun bw op => (applyOp_const bw op).2.2.2.1) bw ops,
   runOps_pres _ (fun bw op => (applyOp_const bw op).2.2.2.2) bw ops⟩

/-- The post-build steps contributed by a sequence of caller operations. -/
def opsSteps : List BuildOp → List JobStep
  | [] => []
  | .postSteps s :: ops => s ++ opsSteps ops
  | .postJob _ _ :: ops => opsSteps ops

/-- The post-build step list after a sequence of operations is the initial list
followed by every contributed batch, in order. -/
theorem runOps_postBuildSteps (bw : BuildWorkflow) (ops : List BuildOp) :
    (runOps bw ops).postBuildSteps = bw.postBuildSteps ++ opsSteps ops := by
  induction ops generalizing bw with
  | nil => simp [runOps, opsSteps]
  | cons op ops ih =>
    rw [runOps, List.foldl_cons]
    rw [show List.foldl applyOp (applyOp bw op) ops = runOps (applyOp bw op) ops from rfl]
    rw [ih]
    cases op with
    | postSteps s => simp [applyOp, addPostBuildSteps, opsSteps]
    | postJob id job =>
      rcases applyOp_postJob_cases bw id job with h | ⟨wf', -, h⟩ <;>
        rw [h, opsSteps]

/-- A job found on the workflow is still found, unchanged, after any sequence
of caller operations. -/
theorem runOps_findJob {bw : BuildWorkflow} {id0 : String} {j : Job} (ops : List BuildOp)
    (hf : findJob bw.workflow id0 = some j) :
    findJob (runOps bw ops).workflow id0 = some j := by
  induction ops generalizing bw with
  | nil => exact hf
  | cons op ops ih =>
    rw [runOps, List.foldl_cons]
    rw [show List.foldl applyOp (applyOp bw op) ops = runOps (applyOp bw op) ops from rfl]
    apply ih
    cases op with
    | postSteps s => exact hf
    | postJob id job =>
      rcases applyOp_postJob_cases bw id job with h | ⟨wf', hadd, h⟩
      · rw [h]
        exact hf
      · rw [h]
        exact findJob_addJob_preserve hf hadd

/-- A job id already on the workflow stays on it and never enters the
post-build id list, under any sequence of caller operations. -/
theorem runOps_guard (bw : BuildWorkflow) (ops : List BuildOp) (S : String)
    (hin : S ∈ wfIds bw.workflow) (hout : S ∉ bw._postBuildJobs) :
    S ∈ wfIds (runOps bw ops).workflow ∧ S ∉ (runOps bw ops)._postBuildJobs := by
  induction ops generalizing bw with
  | nil => exact ⟨hin, hout⟩
  | cons op ops ih =>
    rw [runOps, List.foldl_cons]
    rw [show List.foldl applyOp (applyOp bw op) ops = runOps (applyOp bw op) ops from rfl]
    have hstep : S ∈ wfIds (applyOp bw op).workflow
        ∧ S ∉ (applyOp bw op)._postBuildJobs := by
      cases op with
      | postSteps s => exact ⟨hin, hout⟩
      | postJob id job =>
        rcases applyOp_postJob_cases bw id job with h | ⟨wf', hadd, h⟩
        · rw [h]
          exact ⟨hin, hout⟩
        · obtain ⟨hni, rfl⟩ := addJob_ok hadd
          rw [h]
          refine ⟨?_, ?_⟩
          · show S ∈ wfIds
              { bw.workflow with jobs := bw.workflow.jobs ++ [(id, postJobRecord bw job)] }
            unfold wfIds at hin ⊢
            rw [List.map_append]
            exact List.mem_append.mpr (Or.inl hin)
          · show S ∉ bw._postBuildJobs ++ [id]
            intro hm
            rcases List.mem_append.mp hm with hm | hm
            · exact hout hm
            · simp only [List.mem_singleton] at hm
              subst hm
              exact hni hin
    exact ih _ hstep.1 hstep.2

/-- The freshly constructed workflow carries the build job. -/
theorem findJob_created_build (p : Project) (opts : BuildWorkflowOptions) :
    findJob (createdBW p opts).workflow BUILD_JOBID = some (buildJobOf opts) := by
  unfold findJob createdBW createdWorkflowJobs
  simp [List.find?, BUILD_JOBID]

/-- The freshly constructed workflow carries the anti-tamper job. -/
theorem findJob_created_antiTamper (p : Project) (opts : BuildWorkflowOptions) :
    findJob (createdBW p opts).workflow "anti-tamper"
      = some (antiTamperJobOf opts.onlyForks) := by
  unfold findJob createdBW createdWorkflowJobs
  simp [List.find?, BUILD_JOBID]

/-- With mutable builds enabled the constructed workflow carries the
self-mutation job. -/
theorem findJob_created_selfMutation (p : Project) (opts : BuildWorkflowOptions)
    (h : opts.mutableBuild.getD true = true) :
    findJob (createdBW p opts).workflow "self-mutation"
      = some (selfMutationJobOf (mkConditions p) "PROJEN_GITHUB_TOKEN"
          (opts.gitIdentity.getD DEFAULT_GITHUB_ACTIONS_USER)) := by
  unfold findJob createdBW createdWorkflowJobs
  rw [if_pos h]
  simp [List.find?, BUILD_JOBID]

/-- With mutable builds disabled the constructed workflow carries no
self-mutation job. -/
theorem findJob_created_selfMutation_none (p : Project) (opts : BuildWorkflowOptions)
    (h : opts.mutableBuild.getD true = false) :
    findJob (createdBW p opts).workflow "self-mutation" = none := by
  unfold findJob createdBW createdWorkflowJobs
  rw [if_neg (by simp [h])]
  simp [List.find?, BUILD_JOBID]

/-- The ids the constructor registers. -/
theorem wfIds_created (p : Project) (opts : BuildWorkflowOptions) :
    wfIds (createdBW p opts).workflow
      = [BUILD_JOBID, "anti-tamper"]
        ++ (if opts.mutableBuild.getD true then ["self-mutation"] else []) := by
  unfold wfIds createdBW createdWorkflowJobs
  cases hmb : opts.mutableBuild.getD true <;> simp [hmb]

/-- A successful construction implies the project carried the collaborator and
pins down the produced state. -/
theorem create_ok_inv {p : Project} {opts : BuildWorkflowOptions} {bw : BuildWorkflow}
    (h : create p opts = .ok bw) : p.hasGitHub = true ∧ bw = createdBW p opts := by
  cases hg : p.hasGitHub
  · rw [create_noGithub p opts hg] at h
    exact absurd h (by simp)
  · rw [create_ok p opts hg] at h
    simp only [Except.ok.injEq] at h
    exact ⟨rfl, h.symm⟩

/-- Sample project without the source-control collaborator. -/
def noGithubProject : Project := { hasGitHub := false }

/-- Sample project with the collaborator and a configured auto-approve label. -/
def githubProject : Project := { hasGitHub := true, autoApprove := some "auto-approve" }

/-- Sample build task. -/
def witTask : Task := { name := "build" }

/-- Sample options. -/
def witOpts : BuildWorkflowOptions := { buildTask := witTask, artifactsDirectory := "dist" }

/-- A throwaway state used only as a getD default in concrete samples. -/
def dummyBW : BuildWorkflow :=
  { project := { hasGitHub := false }, github := { project := { hasGitHub := false } },
    workflow := { name := "" }, preBuildSteps := [], postBuildSteps := [],
    gitIdentity := DEFAULT_GITHUB_ACTIONS_USER, buildTask := { name := "" },
    artifactsDirectory := "", mutableBuilds := true, conditions := [],
    onlyForks := false, _postBuildJobs := [] }

/-- The constructed sample state. -/
def sampleBW : BuildWorkflow := (create githubProject witOpts).toOption.getD dummyBW

/-- Claim C6: constructing a BuildWorkflow on a project lacking the GitHub
source-control collaborator throws the dedicated error immediately at
construction time — no state is produced, so no job is ever added and the
failure cannot be deferred to render or synthesis time — while on a project
with the collaborator construction succeeds. -/
theorem C6_construction_requires_github (p : Project) (opts : BuildWorkflowOptions) :
    (GitHub.of p = none →
        create p opts
          = .error "BuildWorkflow is currently only supported for GitHub projects")
    ∧ ((GitHub.of p).isSome → create p opts = .ok (createdBW p opts)) := by
  constructor
  · intro h
    apply create_noGithub
    rcases p with ⟨hg, lbl⟩
    cases hg
    · rfl
    · simp [GitHub.of] at h
  · intro h
    apply create_ok
    rcases p with ⟨hg, lbl⟩
    cases hg
    · simp [GitHub.of] at h
    · rfl

/-- Witness for C6 at concrete projects with and without the collaborator. -/
theorem C6_witness :
    create noGithubProject witOpts
        = .error "BuildWorkflow is currently only supported for GitHub projects"
      ∧ create githubProject witOpts = .ok (createdBW githubProject witOpts) :=
  ⟨(C6_construction_requires_github noGithubProject witOpts).1 rfl,
   (C6_construction_requires_github githubProject witOpts).2 rfl⟩

/-- Claim C7: the diff step rendered into the build job never fails — the
staged-diff comparison is chained behind a shell OR with an echo of the
diff-exists output, so the command exits zero whether or not drift exists — and
the diff-exists output is emitted exactly when staged changes exist. -/
theorem C7_diff_step_never_fails (bw : BuildWorkflow) (stagedChanges : Bool) :
    diffStep ∈ renderBuildSteps bw
    ∧ diffStep.run = some diffRunCommand
    ∧ (interpRun diffRunCommand stagedChanges).exitCode = 0
    ∧ (interpRun diffRunCommand stagedChanges).outputs
        = (if stagedChanges then [(DIFF_EXISTS, "true")] else []) := by
  refine ⟨?_, rfl, ?_, ?_⟩
  · unfold renderBuildSteps
    simp [List.mem_append]
  · cases stagedChanges <;> rfl
  · cases stagedChanges <;> rfl

/-- Claim C10: when the record passed to addPostBuildJob carries its own needs
or if, the rendered job keeps the caller values and the defaults (dependency on
the build job, no-diff condition) are discarded, because the caller record is
spread after the defaults; only the step list is always replaced by the
download-plus-caller-steps sequence, and every other field is the caller's. -/
theorem C10_caller_fields_override (bw : BuildWorkflow) (id : String) (job : Job)
    (bw' : BuildWorkflow) (h : addPostBuildJob bw id job = .ok bw') :
    findJob bw'.workflow id = some (postJobRecord bw job)
    ∧ (postJobRecord bw job).needs = some (job.needs.getD [BUILD_JOBID])
    ∧ (postJobRecord bw job).jobIf = some (job.jobIf.getD postBuildCondition)
    ∧ (postJobRecord bw job).steps = .concrete
        ((if bw.artifactsDirectory = "" then []
          else [downloadArtifactStep bw.artifactsDirectory]) ++ job.stepsList)
    ∧ (postJobRecord bw job).runsOn = job.runsOn
    ∧ (postJobRecord bw job).permissions = job.permissions
    ∧ (postJobRecord bw job).env = job.env
    ∧ (postJobRecord bw job).container = job.container
    ∧ (postJobRecord bw job).outputs = job.outputs := by
  obtain ⟨wf', hadd, rfl⟩ := addPostBuildJob_ok h
  exact ⟨findJob_addJob_self hadd, rfl, rfl, rfl, rfl, rfl, rfl, rfl, rfl⟩

/-- A caller job record with explicit needs and if. -/
def c10job : Job :=
  { needs := some ["deploy"], jobIf := some "$\x7b\x7b true \x7d\x7d",
    steps := .concrete [{ name := some "step1" }] }

/-- The sample state after registering that job. -/
def c10bw : BuildWorkflow :=
  (addPostBuildJob sampleBW "e2e" c10job).toOption.getD dummyBW

/-- Witness for C10 at a concrete registration. -/
theorem C10_witness :
    findJob c10bw.workflow "e2e" = some (postJobRecord sampleBW c10job)
      ∧ (postJobRecord sampleBW c10job).needs = some ["deploy"]
      ∧ (postJobRecord sampleBW c10job).jobIf = some "$\x7b\x7b true \x7d\x7d" := by
  have h := C10_caller_fields_override sampleBW "e2e" c10job c10bw rfl
  exact ⟨h.1, h.2.1, h.2.2.1⟩

/-- Claim C9 (amended): buildJobIds is the build job id followed by the
successfully registered post-build job ids in registration order; the
constructor-added guard jobs never enter it — the anti-tamper id never occurs,
and, when mutable builds are enabled, the self-mutation id never occurs. (When
mutable builds are disabled the id "self-mutation" is unclaimed and a caller
may register a post-build job under it, which then appears.) -/
theorem C9_buildJobIds (p : Project) (opts : BuildWorkflowOptions) (bw : BuildWorkflow)
    (h : create p opts = .ok bw) (ops : List BuildOp) :
    buildJobIds (runOps bw ops) = BUILD_JOBID :: (runOps bw ops)._postBuildJobs
    ∧ "anti-tamper" ∉ buildJobIds (runOps bw ops)
    ∧ (opts.mutableBuild.getD true = true →
        "self-mutation" ∉ buildJobIds (runOps bw ops)) := by
  obtain ⟨hg, rfl⟩ := create_ok_inv h
  refine ⟨rfl, ?_, ?_⟩
  · have hguard := runOps_guard (createdBW p opts) ops "anti-tamper" ?_ (by simp [createdBW])
    · intro hm
      rcases List.mem_cons.mp hm with he | hm
      · exact absurd he (by decide)
      · exact hguard.2 hm
    · rw [wfIds_created]
      exact List.mem_append.mpr (Or.inl (by decide))
  · intro hmb
    have hguard := runOps_guard (createdBW p opts) ops "self-mutation" ?_ (by simp [createdBW])
    · intro hm
      rcases List.mem_cons.mp hm with he | hm
      · exact absurd he (by decide)
      · exact hguard.2 hm
    · rw [wfIds_created, hmb]
      exact List.mem_append.mpr (Or.inr (by simp))

/-- Witness for C9 at a concrete construction and registration sequence. -/
theorem C9_witness :
    buildJobIds (runOps sampleBW [.postJob "e2e" { steps := .concrete [] }])
        = BUILD_JOBID :: (runOps sampleBW [.postJob "e2e" { steps := .concrete [] }])._postBuildJobs
      ∧ "anti-tamper" ∉ buildJobIds (runOps sampleBW [.postJob "e2e" { steps := .concrete [] }]) := by
  have h := C9_buildJobIds githubProject witOpts sampleBW rfl
    [.postJob "e2e" { steps := .concrete [] }]
  exact ⟨h.1, h.2.1⟩

/-- Options with mutable builds disabled. -/
def c9opts : BuildWorkflowOptions :=
  { buildTask := witTask, artifactsDirectory := "dist", mutableBuild := some false }

/-- The state built from those options. -/
def c9bw : BuildWorkflow := (create githubProject c9opts).toOption.getD dummyBW

/-- The state after registering a post-build job under the id "self-mutation". -/
def c9bw2 : BuildWorkflow :=
  (addPostBuildJob c9bw "self-mutation" { steps := .concrete [] }).toOption.getD dummyBW

/-- Counterexample to claim C9 as stated: with mutable builds disabled the
constructor registers no self-mutation job, so a caller can register a
post-build job under the id "self-mutation" and buildJobIds then contains that
id, contradicting that it never includes it regardless of configuration. -/
theorem C9_counterexample : "self-mutation" ∈ buildJobIds c9bw2 := by decide

/-- Claim C5 (amended): for a job registered via addPostBuildJob whose record
supplies neither needs nor if, the rendered job is the artifact-download step
(present exactly when an artifacts directory is configured, the empty string
counting as unconfigured) followed by the caller steps in order, its dependency
set is exactly the build job, and its run condition is the negation of the
build job's diff-exists output. -/
theorem C5_postBuildJob_defaults (bw : BuildWorkflow) (id : String) (job : Job)
    (bw' : BuildWorkflow) (hn : job.needs = none) (hi : job.jobIf = none)
    (h : addPostBuildJob bw id job = .ok bw') :
    ∃ j, findJob bw'.workflow id = some j
      ∧ j.steps = .concrete
          ((if bw.artifactsDirectory = "" then []
            else [downloadArtifactStep bw.artifactsDirectory]) ++ job.stepsList)
      ∧ j.needs = some [BUILD_JOBID]
      ∧ j.jobIf = some postBuildCondition
      ∧ (∀ ctx : GHCtx, evalCond ctx postBuildCondition = !ctx.diffExists) := by
  obtain ⟨wf', hadd, rfl⟩ := addPostBuildJob_ok h
  refine ⟨postJobRecord bw job, findJob_addJob_self hadd, rfl, ?_, ?_, evalCond_postBuild⟩
  · simp [postJobRecord, hn]
  · simp [postJobRecord, hi]

/-- A caller job record with neither needs nor if. -/
def c5job : Job := { steps := .concrete [{ name := some "test" }] }

/-- The sample state after registering it. -/
def c5bw : BuildWorkflow :=
  (addPostBuildJob sampleBW "package" c5job).toOption.getD dummyBW

/-- Witness for C5 at a concrete registration without caller needs or if. -/
theorem C5_witness :
    ∃ j, findJob c5bw.workflow "package" = some j
      ∧ j.steps = .concrete
          ((if sampleBW.artifactsDirectory = "" then []
            else [downloadArtifactStep sampleBW.artifactsDirectory]) ++ c5job.stepsList)
      ∧ j.needs = some [BUILD_JOBID]
      ∧ j.jobIf = some postBuildCondition
      ∧ (∀ ctx : GHCtx, evalCond ctx postBuildCondition = !ctx.diffExists) :=
  C5_postBuildJob_defaults sampleBW "package" c5job c5bw rfl rfl rfl

/-- A caller job record overriding both defaults. -/
def c5badJob : Job :=
  { needs := some ["other"], jobIf := some "$\x7b\x7b true \x7d\x7d", steps := .concrete [] }

/-- The sample state after registering it. -/
def c5badBW : BuildWorkflow :=
  (addPostBuildJob sampleBW "bad" c5badJob).toOption.getD dummyBW

/-- Counterexample to claim C5 as stated: a registered job that carries its own
needs and if is rendered with the caller values, so its dependency set is not
the build job and its condition is not the negated diff output. -/
theorem C5_counterexample :
    ((findJob c5badBW.workflow "bad").getD {}).needs ≠ some [BUILD_JOBID]
    ∧ ((findJob c5badBW.workflow "bad").getD {}).jobIf ≠ some postBuildCondition := by
  constructor
  · decide
  · decide

/-- Claim C3 (amended): in every configuration, when the build job's
diff-exists output is false, the job-level conditions of the constructor's
self-mutation job (when mutable builds are enabled) and of the anti-tamper job
both evaluate false, and the condition of every job registered via
addPostBuildJob without a caller-supplied if evaluates true. -/
theorem C3_noDiff (p : Project) (opts : BuildWorkflowOptions) (bw : BuildWorkflow)
    (h : create p opts = .ok bw) (ops : List BuildOp) (ctx : GHCtx)
    (hd : ctx.diffExists = false) :
    (opts.mutableBuild.getD true = true →
        ∃ j, findJob (runOps bw ops).workflow "self-mutation" = some j
          ∧ jobRuns ctx j = false)
    ∧ (∃ j, findJob (runOps bw ops).workflow "anti-tamper" = some j
        ∧ jobRuns ctx j = false)
    ∧ (∀ (bw1 : BuildWorkflow) (id : String) (job : Job) (bw2 : BuildWorkflow),
        job.jobIf = none → addPostBuildJob bw1 id job = .ok bw2 →
        ∀ j, findJob bw2.workflow id = some j → jobRuns ctx j = true) := by
  obtain ⟨hg, rfl⟩ := create_ok_inv h
  refine ⟨?_, ?_, ?_⟩
  · intro hmb
    refine ⟨selfMutationJobOf (mkConditions p) "PROJEN_GITHUB_TOKEN"
        (opts.gitIdentity.getD DEFAULT_GITHUB_ACTIONS_USER),
      runOps_findJob ops (findJob_created_selfMutation p opts hmb), ?_⟩
    show evalCond ctx (selfMutationCondition (mkConditions p)) = false
    exact evalCond_selfMutation_noDiff ctx p hd
  · refine ⟨antiTamperJobOf opts.onlyForks,
      runOps_findJob ops (findJob_created_antiTamper p opts), ?_⟩
    show evalCond ctx (antiTamperCondition opts.onlyForks) = false
    rw [evalCond_antiTamper, hd]
    rfl
  · intro bw1 id job bw2 hi hadd j hfind
    obtain ⟨wf', haj, rfl⟩ := addPostBuildJob_ok hadd
    have hfind' : findJob wf' id = some j := hfind
    have hj : postJobRecord bw1 job = j :=
      Option.some.inj ((findJob_addJob_self haj).symm.trans hfind')
    subst hj
    show evalCond ctx (job.jobIf.getD postBuildCondition) = true
    rw [hi]
    show evalCond ctx postBuildCondition = true
    rw [evalCond_postBuild, hd]
    rfl

/-- Witness for C3 at a concrete configuration and context without drift. -/
theorem C3_witness :
    (∃ j, findJob (runOps sampleBW []).workflow "anti-tamper" = some j
      ∧ jobRuns { diffExists := false, isFork := false, labels := [] } j = false) := by
  have h := C3_noDiff githubProject witOpts sampleBW rfl []
    { diffExists := false, isFork := false, labels := [] } rfl
  exact h.2.1

/-- The execution context of the C3 counterexample: no drift. -/
def c3ctx : GHCtx := { diffExists := false, isFork := false, labels := [] }

/-- A post-build job whose caller-supplied condition is the raw diff test. -/
def c3badJob : Job :=
  { jobIf := some ("$\x7b\x7b " ++ diffOutputExpr ++ " \x7d\x7d"), steps := .concrete [] }

/-- The sample state after registering it. -/
def c3bw : BuildWorkflow :=
  (addPostBuildJob sampleBW "report" c3badJob).toOption.getD dummyBW

/-- Counterexample to claim C3 as stated: a job registered via addPostBuildJob
with a caller-supplied if does not evaluate true when the diff output is false
— here its condition evaluates false — so the condition of every registered
job cannot be claimed to evaluate true. -/
theorem C3_counterexample :
    c3ctx.diffExists = false
    ∧ jobRuns c3ctx ((findJob c3bw.workflow "report").getD {}) = false := by
  constructor
  · rfl
  · decide

/-- Claim C1: the self-mutation job is added to the workflow iff mutable builds
are enabled (the default when the option is omitted); its job-level condition
is the rendered conjunction of the diff-exists output, the negated fork test,
and — exactly when an auto-approve label is configured on the project — the
negated label-containment test, and it evaluates to that conjunction (for any
configured label whose rendered conjunct is free of the textual AND operator,
which would break the string-joined conjunction). -/
theorem C1_selfMutation (p : Project) (opts : BuildWorkflowOptions) (bw : BuildWorkflow)
    (h : create p opts = .ok bw) :
    ((findJob bw.workflow "self-mutation").isSome ↔ opts.mutableBuild.getD true = true)
    ∧ (∀ j, findJob bw.workflow "self-mutation" = some j →
        j.jobIf = some (selfMutationCondition (mkConditions p))
        ∧ ∀ ctx : GHCtx,
            (∀ l, p.autoApprove = some l → hasAmpAmp (labelCondStr l).data = false) →
            jobRuns ctx j
              = (ctx.diffExists && (!ctx.isFork
                  && (match p.autoApprove with
                      | some l => !(ctx.labels.contains l)
                      | none => true)))) := by
  obtain ⟨hg, rfl⟩ := create_ok_inv h
  constructor
  · cases hmb : opts.mutableBuild.getD true
    · rw [findJob_created_selfMutation_none p opts hmb]
      simp
    · rw [findJob_created_selfMutation p opts hmb]
      simp
  · intro j hj
    cases hmb : opts.mutableBuild.getD true
    · rw [findJob_created_selfMutation_none p opts hmb] at hj
      exact absurd hj (by simp)
    · rw [findJob_created_selfMutation p opts hmb] at hj
      obtain rfl := Option.some.inj hj
      refine ⟨rfl, ?_⟩
      intro ctx hl
      show evalCond ctx (selfMutationCondition (mkConditions p)) = _
      exact evalCond_selfMutation ctx p hl

/-- The execution context of the C1 witness: drift on a non-fork change whose
pull request does not carry the configured label. -/
def c1ctx : GHCtx := { diffExists := true, isFork := false, labels := ["other"] }

/-- The self-mutation job of the sample state. -/
def c1job : Job := (findJob sampleBW.workflow "self-mutation").getD {}

set_option maxRecDepth 8192 in
/-- Witness for C1 at the sample configuration with a configured label. -/
theorem C1_witness :
    ((findJob sampleBW.workflow "self-mutation").isSome ↔ witOpts.mutableBuild.getD true = true)
    ∧ jobRuns c1ctx c1job = true := by
  have h := C1_selfMutation githubProject witOpts sampleBW rfl
  refine ⟨h.1, ?_⟩
  have hfind : findJob sampleBW.workflow "self-mutation" = some c1job := by decide
  have hl : ∀ l, githubProject.autoApprove = some l
      → hasAmpAmp (labelCondStr l).data = false := by
    intro l hll
    have he : (some "auto-approve" : Option String) = some l := hll
    obtain rfl := Option.some.inj he
    decide
  have h2 := (h.2 c1job hfind).2 c1ctx hl
  rw [h2]
  decide

/-- Claim C2: the anti-tamper job is constructed for every BuildWorkflow,
unconditionally — coexisting with the self-mutation job when mutable builds are
enabled — and its job-level condition evaluates to: drift exists AND, when the
only-forks toggle is set, the change originates from a fork; without the toggle
it runs on any drift. -/
theorem C2_antiTamper (p : Project) (opts : BuildWorkflowOptions) (bw : BuildWorkflow)
    (h : create p opts = .ok bw) :
    (∃ j, findJob bw.workflow "anti-tamper" = some j)
    ∧ (∀ j, findJob bw.workflow "anti-tamper" = some j →
        j.jobIf = some (antiTamperCondition opts.onlyForks)
        ∧ ∀ ctx : GHCtx,
            jobRuns ctx j = (ctx.diffExists && (!opts.onlyForks || ctx.isFork)))
    ∧ (opts.mutableBuild.getD true = true →
        (findJob bw.workflow "self-mutation").isSome) := by
  obtain ⟨hg, rfl⟩ := create_ok_inv h
  refine ⟨⟨antiTamperJobOf opts.onlyForks, findJob_created_antiTamper p opts⟩, ?_, ?_⟩
  · intro j hj
    rw [findJob_created_antiTamper p opts] at hj
    obtain rfl := Option.some.inj hj
    refine ⟨rfl, ?_⟩
    intro ctx
    show evalCond ctx (antiTamperCondition opts.onlyForks) = _
    exact evalCond_antiTamper ctx opts.onlyForks
  · intro hmb
    rw [findJob_created_selfMutation p opts hmb]
    rfl

/-- Options with the only-forks anti-tamper toggle set. -/
def c2opts : BuildWorkflowOptions :=
  { buildTask := witTask, artifactsDirectory := "dist", onlyForks := true }

/-- The state built from those options. -/
def c2bw : BuildWorkflow := (create githubProject c2opts).toOption.getD dummyBW

/-- The execution context of the C2 witness: drift on a fork-originated change. -/
def c2ctx : GHCtx := { diffExists := true, isFork := true, labels := [] }

/-- Witness for C2 at a configuration with the only-forks toggle set. -/
theorem C2_witness :
    (∃ j, findJob c2bw.workflow "anti-tamper" = some j)
    ∧ jobRuns c2ctx ((findJob c2bw.workflow "anti-tamper").getD {}) = true := by
  have h := C2_antiTamper githubProject c2opts c2bw rfl
  refine ⟨h.1, ?_⟩
  have hfind : findJob c2bw.workflow "anti-tamper"
      = some ((findJob c2bw.workflow "anti-tamper").getD {}) := by decide
  have h2 := (h.2.1 _ hfind).2 c2ctx
  rw [h2]
  decide

/-- Claim C4: the build job's step list is the lazy thunk, and at render time
it is exactly, in order: the checkout of the triggering ref/repository, the
pre-build steps, one step running the build task whose display name is the
task's declared name, the post-build steps (the construction-time ones followed
by every batch contributed later), the diff step, the patch upload conditioned
on the diff-exists step output being true, and — exactly when at least one
post-build job is registered at render time — the artifact upload of the
artifacts directory conditioned on that output being false. -/
theorem C4_renderBuildSteps (p : Project) (opts : BuildWorkflowOptions) (bw : BuildWorkflow)
    (h : create p opts = .ok bw) (ops : List BuildOp) :
    (∀ j, findJob (runOps bw ops).workflow BUILD_JOBID = some j → j.steps = .lazyRender)
    ∧ renderBuildSteps (runOps bw ops)
      = [buildCheckoutStep]
        ++ opts.preBuildSteps
        ++ [{ name := some opts.buildTask.name,
              run := some (Project.runTaskCommand p opts.buildTask) }]
        ++ (opts.postBuildSteps ++ opsSteps ops)
        ++ [diffStep]
        ++ WorkflowActions.createUploadGitPatch patchCondition
        ++ (if (runOps bw ops)._postBuildJobs = [] then []
            else [uploadArtifactStep opts.artifactsDirectory])
    ∧ (∀ ctx : GHCtx, evalCond ctx patchCondition = ctx.diffExists)
    ∧ (∀ ctx : GHCtx, evalCond ctx uploadArtifactCondition = !ctx.diffExists) := by
  obtain ⟨hg, rfl⟩ := create_ok_inv h
  obtain ⟨hcpre, hctask, hcgh, hcdir, -⟩ := runOps_const (createdBW p opts) ops
  refine ⟨?_, ?_, ?_, ?_⟩
  · intro j hj
    have hfb := runOps_findJob ops (findJob_created_build p opts)
    obtain rfl := Option.some.inj (hfb.symm.trans hj)
    rfl
  · unfold renderBuildSteps
    rw [hcpre, hctask, hcgh, hcdir, runOps_postBuildSteps]
    simp only [List.length_eq_zero]
    rfl
  · intro ctx
    rcases ctx with ⟨d, f, L⟩
    cases d <;> rfl
  · intro ctx
    rcases ctx with ⟨d, f, L⟩
    cases d <;> rfl

/-- An extra post-build step contributed after construction. -/
def c4step : JobStep := { name := some "lint", run := some "npm run lint" }

/-- A concrete operation sequence for the C4 witness. -/
def c4ops : List BuildOp := [.postSteps [c4step], .postJob "c4job" { steps := .concrete [] }]

/-- Witness for C4 at the sample configuration and a concrete operation
sequence with one contributed step batch and one registered job. -/
theorem C4_witness :
    renderBuildSteps (runOps sampleBW c4ops)
      = [buildCheckoutStep]
        ++ witOpts.preBuildSteps
        ++ [{ name := some witOpts.buildTask.name,
              run := some (Project.runTaskCommand githubProject witOpts.buildTask) }]
        ++ (witOpts.postBuildSteps ++ opsSteps c4ops)
        ++ [diffStep]
        ++ WorkflowActions.createUploadGitPatch patchCondition
        ++ (if (runOps sampleBW c4ops)._postBuildJobs = [] then []
            else [uploadArtifactStep witOpts.artifactsDirectory]) :=
  (C4_renderBuildSteps githubProject witOpts sampleBW rfl c4ops).2.1

/-- The rendered reference to the privileged projen token secret of a created
workflow. -/
def tokStr : String := tokenRef "PROJEN_GITHUB_TOKEN"

/-- Whether a caller operation contributes only steps free of the given
pattern. -/
def opClean (tok : String) : BuildOp → Bool
  | .postSteps s => s.all (fun st => !stepMentions tok st)
  | .postJob _ j => j.stepsList.all (fun st => !stepMentions tok st)

/-- The artifact-download step never mentions the token when the artifacts
directory does not. -/
theorem download_clean (dir : String) (hdir : occursS tokStr dir = false) :
    stepMentions tokStr (downloadArtifactStep dir) = false := by
  have h1 : occursS tokStr "Download build artifacts" = false := by decide
  have h2 : occursS tokStr "actions/download-artifact@v2" = false := by decide
  have h3 : occursS tokStr BUILD_ARTIFACT_NAME = false := by decide
  simp [stepMentions, downloadArtifactStep, mentionsOpt, hdir, h1, h2, h3]

/-- Steps contributed by token-clean operations are token-clean. -/
theorem opsSteps_clean (ops : List BuildOp) (hops : ∀ op ∈ ops, opClean tokStr op = true) :
    ∀ st ∈ opsSteps ops, stepMentions tokStr st = false := by
  induction ops with
  | nil =>
    intro st hst
    simp [opsSteps] at hst
  | cons op ops ih =>
    intro st hst
    cases op with
    | postSteps s =>
      rw [opsSteps] at hst
      rcases List.mem_append.mp hst with hm | hm
      · have hall := hops (.postSteps s) (List.mem_cons_self _ _)
        rw [opClean, List.all_eq_true] at hall
        simpa using hall st hm
      · exact ih (fun op' h' => hops op' (List.mem_cons_of_mem _ h')) st hm
    | postJob id j =>
      rw [opsSteps] at hst
      exact ih (fun op' h' => hops op' (List.mem_cons_of_mem _ h')) st hst

/-- The rendered build steps never mention the token when neither the
caller-contributed steps nor the task name, task command or artifacts
directory do. -/
theorem render_clean (bw : BuildWorkflow)
    (hpre : ∀ st ∈ bw.preBuildSteps, stepMentions tokStr st = false)
    (hpost : ∀ st ∈ bw.postBuildSteps, stepMentions tokStr st = false)
    (htask : occursS tokStr bw.buildTask.name = false)
    (hcmd : occursS tokStr (bw.github.project.runTaskCommand bw.buildTask) = false)
    (hdir : occursS tokStr bw.artifactsDirectory = false) :
    ∀ st ∈ renderBuildSteps bw, stepMentions tokStr st = false := by
  intro st hst
  unfold renderBuildSteps at hst
  simp only [List.mem_append, List.mem_singleton,
    WorkflowActions.createUploadGitPatch] at hst
  rcases hst with ((((((h | h) | h) | h) | h) | h) | h)
  · subst h
    decide
  · exact hpre st h
  · subst h
    simp [stepMentions, mentionsOpt, htask, hcmd]
  · exact hpost st h
  · subst h
    decide
  · subst h
    decide
  · split at h
    · simp at h
    · simp only [List.mem_singleton] at h
      subst h
      have h1 : occursS tokStr "Upload artifact" = false := by decide
      have h2 : occursS tokStr "actions/upload-artifact@v2.1.1" = false := by decide
      have h3 : occursS tokStr uploadArtifactCondition = false := by decide
      have h4 : occursS tokStr BUILD_ARTIFACT_NAME = false := by decide
      simp [stepMentions, uploadArtifactStep, mentionsOpt, hdir, h1, h2, h3, h4]

/-- Every job present after a sequence of token-clean operations is either one
of the constructor's jobs or carries a concrete token-clean step list. -/
theorem runOps_jobs_mem (bw : BuildWorkflow) (ops : List BuildOp)
    (hops : ∀ op ∈ ops, opClean tokStr op = true)
    (hdir : occursS tokStr bw.artifactsDirectory = false) :
    ∀ pr ∈ (runOps bw ops).workflow.jobs,
      pr ∈ bw.workflow.jobs
      ∨ ∃ steps, pr.2.steps = .concrete steps
          ∧ ∀ st ∈ steps, stepMentions tokStr st = false := by
  induction ops generalizing bw with
  | nil =>
    intro pr hpr
    exact Or.inl hpr
  | cons op ops ih =>
    intro pr hpr
    rw [runOps, List.foldl_cons] at hpr
    rw [show List.foldl applyOp (applyOp bw op) ops = runOps (applyOp bw op) ops
      from rfl] at hpr
    have hdir' : occursS tokStr (applyOp bw op).artifactsDirectory = false := by
      rw [(applyOp_const bw op).2.2.2.1]
      exact hdir
    have hrec := ih (applyOp bw op)
      (fun op' h' => hops op' (List.mem_cons_of_mem _ h')) hdir' pr hpr
    rcases hrec with hmem | hclean
    · cases op with
      | postSteps s => exact Or.inl hmem
      | postJob id job =>
        rcases applyOp_postJob_cases bw id job with he | ⟨wf', hadd, he⟩
        · rw [he] at hmem
          exact Or.inl hmem
        · obtain ⟨-, rfl⟩ := addJob_ok hadd
          rw [he] at hmem
          have hmem' : pr ∈ bw.workflow.jobs ++ [(id, postJobRecord bw job)] := hmem
          rcases List.mem_append.mp hmem' with hm | hm
          · exact Or.inl hm
          · simp only [List.mem_singleton] at hm
            subst hm
            refine Or.inr ⟨_, rfl, ?_⟩
            intro st hst
            have hopc := hops (.postJob id job) (List.mem_cons_self _ _)
            rw [opClean, List.all_eq_true] at hopc
            rcases List.mem_append.mp hst with hd2 | hc
            · split at hd2
              · simp at hd2
              · simp only [List.mem_singleton] at hd2
                subst hd2
                exact download_clean bw.artifactsDirectory hdir
            · simpa using hopc st hc
    · exact Or.inr hclean

/-- Claim C8: the privileged write credential (the templated projen token
secret) appears only in the self-mutation job's steps: in every constructed
workflow whose caller-supplied content does not itself embed the token
reference, no step of the build job, the anti-tamper job or any post-build job
mentions it, while the self-mutation job (when mutable builds are enabled)
carries a checkout step holding it; the build job's checkout carries no
credential at all, and the anti-tamper job is granted the empty permission
set. -/
theorem C8_token_isolation (p : Project) (opts : BuildWorkflowOptions) (bw : BuildWorkflow)
    (h : create p opts = .ok bw) (ops : List BuildOp)
    (hpre : ∀ st ∈ opts.preBuildSteps, stepMentions tokStr st = false)
    (hpost : ∀ st ∈ opts.postBuildSteps, stepMentions tokStr st = false)
    (hops : ∀ op ∈ ops, opClean tokStr op = true)
    (htask : occursS tokStr opts.buildTask.name = false)
    (hcmd : occursS tokStr (Project.runTaskCommand p opts.buildTask) = false)
    (hdir : occursS tokStr opts.artifactsDirectory = false) :
    (∀ pr ∈ (runOps bw ops).workflow.jobs, pr.1 ≠ "self-mutation" →
        ∀ st ∈ jobStepsIn (runOps bw ops) pr.2, stepMentions tokStr st = false)
    ∧ (opts.mutableBuild.getD true = true →
        ∃ j, findJob (runOps bw ops).workflow "self-mutation" = some j
          ∧ ∃ st ∈ jobStepsIn (runOps bw ops) j, st.withToken = some tokStr)
    ∧ (∀ j, findJob (runOps bw ops).workflow BUILD_JOBID = some j →
        (jobStepsIn (runOps bw ops) j).head? = some buildCheckoutStep
        ∧ buildCheckoutStep.withToken = none)
    ∧ (∀ j, findJob (runOps bw ops).workflow "anti-tamper" = some j →
        j.permissions = { contents := none }) := by
  obtain ⟨hg, rfl⟩ := create_ok_inv h
  obtain ⟨hcpre, hctask, hcgh, hcdir, -⟩ := runOps_const (createdBW p opts) ops
  have hrender : ∀ st ∈ renderBuildSteps (runOps (createdBW p opts) ops),
      stepMentions tokStr st = false := by
    apply render_clean
    · rw [hcpre]
      exact hpre
    · rw [runOps_postBuildSteps]
      intro st hst
      rcases List.mem_append.mp hst with hm | hm
      · exact hpost st hm
      · exact opsSteps_clean ops hops st hm
    · rw [hctask]
      exact htask
    · rw [hcgh, hctask]
      exact hcmd
    · rw [hcdir]
      exact hdir
  refine ⟨?_, ?_, ?_, ?_⟩
  · intro pr hpr hne st hstep
    rcases runOps_jobs_mem (createdBW p opts) ops hops hdir pr hpr
      with hmem | ⟨steps, hsteps, hclean⟩
    · have hmem' : pr ∈ createdWorkflowJobs p opts := hmem
      unfold createdWorkflowJobs at hmem'
      rcases List.mem_append.mp hmem' with hm | hm
      · rcases List.mem_cons.mp hm with he | hm2
        · subst he
          exact hrender st hstep
        · rcases List.mem_cons.mp hm2 with he | hm3
          · subst he
            have hstep' : st ∈ WorkflowActions.checkoutWithPatch none
                (some PULL_REQUEST_REF) (some PULL_REQUEST_REPOSITORY)
                ++ [{ name := some "Found diff after build (update your branch)",
                      run := some "git diff --staged --exit-code" }] := hstep
            simp only [WorkflowActions.checkoutWithPatch, List.cons_append,
              List.nil_append, List.mem_cons, List.not_mem_nil, or_false] at hstep'
            rcases hstep' with he2 | he2 <;> subst he2 <;> decide
          · simp at hm3
      · split at hm
        · simp only [List.mem_singleton] at hm
          subst hm
          exact absurd rfl hne
        · simp at hm
    · have hsi : jobStepsIn (runOps (createdBW p opts) ops) pr.2 = steps := by
        unfold jobStepsIn
        rw [hsteps]
      rw [hsi] at hstep
      exact hclean st hstep
  · intro hmb
    refine ⟨selfMutationJobOf (mkConditions p) "PROJEN_GITHUB_TOKEN"
        (opts.gitIdentity.getD DEFAULT_GITHUB_ACTIONS_USER),
      runOps_findJob ops (findJob_created_selfMutation p opts hmb), ?_⟩
    refine ⟨{ name := some "Checkout", uses := some "actions/checkout@v2",
              withToken := some tokStr, withRef := some PULL_REQUEST_REF,
              withRepository := some PULL_REQUEST_REPOSITORY }, ?_, rfl⟩
    exact List.Mem.head _
  · intro j hj
    have hfb := runOps_findJob ops (findJob_created_build p opts)
    obtain rfl := Option.some.inj (hfb.symm.trans hj)
    exact ⟨rfl, rfl⟩
  · intro j hj
    have hfa := runOps_findJob ops (findJob_created_antiTamper p opts)
    obtain rfl := Option.some.inj (hfa.symm.trans hj)
    rfl

/-- A concrete operation sequence for the C8 witness. -/
def c8ops : List BuildOp :=
  [.postSteps [{ name := some "docs", run := some "npm run docs" }],
   .postJob "publish" { steps := .concrete [{ name := some "release" }] }]

set_option maxRecDepth 8192 in
/-- Witness for C8 at the sample configuration and a concrete operation
sequence: the self-mutation job carries the token while the build job's
rendered steps do not mention it. -/
theorem C8_witness :
    (∃ j, findJob (runOps sampleBW c8ops).workflow "self-mutation" = some j
      ∧ ∃ st ∈ jobStepsIn (runOps sampleBW c8ops) j, st.withToken = some tokStr)
    ∧ (∀ pr ∈ (runOps sampleBW c8ops).workflow.jobs, pr.1 ≠ "self-mutation" →
        ∀ st ∈ jobStepsIn (runOps sampleBW c8ops) pr.2,
          stepMentions tokStr st = false) := by
  have h := C8_token_isolation githubProject witOpts sampleBW rfl c8ops
    (by decide) (by decide) (by decide) (by decide) (by decide) (by decide)
  exact ⟨h.2.1 rfl, h.1⟩

end Projen
